import Mathlib

set_option maxRecDepth 10000

/-!
Verification of the virtual1403 printer stream scanner and webserver UI
handlers, as a shallow embedding in Lean 4.

Bytes are modelled as natural numbers; the line buffer is a list of bytes.
-/

namespace Virtual1403

/-- From src/scanner/common.go: the maximum line length of the printer. -/
def maxLineLen : Nat := 132

/-- From src/scanner/common.go: the tab control byte. -/
def charTab : Nat := 0x9

/-- From src/scanner/common.go: the line feed control byte. -/
def charLF : Nat := 0xA

/-- From src/scanner/common.go: the form feed control byte. -/
def charFF : Nat := 0xC

/-- From src/scanner/common.go: the carriage return control byte. -/
def charCR : Nat := 0xD

/-- The events emitted to a PrinterHandler (src/scanner/common.go):
AddLine, PageBreak and EndOfJob. -/
inductive Event where
  | addLine (line : List Nat) (linefeed : Bool)
  | pageBreak
  | endOfJob (jobinfo : String)
deriving DecidableEq

/-- Modelled from the spec: the scanner state is the current line buffer,
the column cursor and the pending-overstrike marker (set when the previous
byte was a carriage return, so that a following line feed is coalesced). -/
structure ScannerState where
  buf : List Nat
  col : Nat
  prevCR : Bool
deriving DecidableEq

/-- The scanner state at the start of a job: empty buffer, column 0,
no pending carriage return. -/
def initState : ScannerState := ⟨[], 0, false⟩

/-- Modelled from the spec: the next multiple-of-8 tab stop from a column,
capped at the 132-column limit. -/
def nextTabStop (col : Nat) : Nat :=
  min ((col / 8 + 1) * 8) maxLineLen

/-- Modelled from the spec (section 4.1 byte dispatch table): feed one byte
to the scanner, returning the new state and the events emitted, in order.
The scanner implementation file is not part of the provided sources; only
its handler interface and byte constants (src/scanner/common.go) are. -/
def feedByte (s : ScannerState) (b : Nat) : ScannerState × List Event :=
  if b = charLF then
    if s.prevCR then (initState, [])
    else (initState, [Event.addLine s.buf true])
  else if b = charCR then
    (⟨[], 0, true⟩, [Event.addLine s.buf false])
  else if b = charFF then
    if s.buf ≠ [] ∨ 0 < s.col then
      (initState, [Event.addLine s.buf true, Event.pageBreak])
    else
      (initState, [Event.pageBreak])
  else if b = charTab then
    (⟨s.buf ++ List.replicate (nextTabStop s.col - s.col) 0x20,
      nextTabStop s.col, false⟩, [])
  else
    if s.col < maxLineLen then
      (⟨s.buf ++ [b], s.col + 1, false⟩, [])
    else
      (⟨s.buf, s.col, false⟩, [])

/-- Feed a list of bytes sequentially, concatenating the emitted events in
arrival order. -/
def feedList (s : ScannerState) (bs : List Nat) : ScannerState × List Event :=
  match bs with
  | [] => (s, [])
  | b :: rest =>
    ((feedList (feedByte s b).1 rest).1,
     (feedByte s b).2 ++ (feedList (feedByte s b).1 rest).2)

/-- Modelled from the spec (section 4.1, end of stream): close the stream.
If a line is in progress it is flushed with advance = true, then exactly
one job-completion event carrying the caller-supplied descriptor. -/
def closeJob (s : ScannerState) (jobinfo : String) : List Event :=
  if s.buf ≠ [] ∨ 0 < s.col then
    [Event.addLine s.buf true, Event.endOfJob jobinfo]
  else
    [Event.endOfJob jobinfo]

/-- Run a whole job: feed every byte from the initial state, then close. -/
def scan (bs : List Nat) (jobinfo : String) : List Event :=
  (feedList initState bs).2 ++ closeJob (feedList initState bs).1 jobinfo

/-- The events emitted at each input position: entry i is the list of
events triggered by byte i of the stream. -/
def perByteEvents (s : ScannerState) : List Nat → List (List Event)
  | [] => []
  | b :: rest => (feedByte s b).2 :: perByteEvents (feedByte s b).1 rest

/-- Recognizer for job-completion events. -/
def isEndOfJob : Event → Bool
  | Event.endOfJob _ => true
  | _ => false

/-- Recognizer for line-completion events. -/
def isAddLine : Event → Bool
  | Event.addLine _ _ => true
  | _ => false

example : scan [0x41, 0x42, 0x43, charLF, 0x58, 0x59, 0x5A, charLF] "j" =
    [Event.addLine [0x41, 0x42, 0x43] true,
     Event.addLine [0x58, 0x59, 0x5A] true, Event.endOfJob "j"] := rfl

example : scan [0x41, 0x42, charCR, charLF, 0x58, 0x59, charLF] "j" =
    [Event.addLine [0x41, 0x42] false,
     Event.addLine [0x58, 0x59] true, Event.endOfJob "j"] := rfl

example : scan [charFF] "j" = [Event.pageBreak, Event.endOfJob "j"] := rfl

example : scan [0x41, 0x42, charFF] "j" =
    [Event.addLine [0x41, 0x42] true, Event.pageBreak,
     Event.endOfJob "j"] := rfl

example : scan [0x41, 0x42, 0x43, charCR] "j" =
    [Event.addLine [0x41, 0x42, 0x43] false, Event.endOfJob "j"] := rfl

example : scan [charFF, charFF] "j" =
    [Event.pageBreak, Event.pageBreak, Event.endOfJob "j"] := rfl

example : scan [charTab, 0x41, charLF] "j" =
    [Event.addLine [32, 32, 32, 32, 32, 32, 32, 32, 0x41] true,
     Event.endOfJob "j"] := rfl

example :
    scan (List.replicate 140 0x41 ++ [charLF]) "j" =
    [Event.addLine (List.replicate 132 0x41) true, Event.endOfJob "j"] := by
  decide

/-- The run invariant of the scanner: the buffer length equals the column
cursor, and the column never exceeds the 132-column limit. -/
def scannerInv (s : ScannerState) : Prop :=
  s.buf.length = s.col ∧ s.col ≤ maxLineLen

theorem feedList_events_join (s : ScannerState) (bs : List Nat) :
    (feedList s bs).2 = (perByteEvents s bs).flatten := by
  induction bs generalizing s with
  | nil => rfl
  | cons b rest ih => simp [feedList, perByteEvents, ih]

theorem feedByte_eoj_filter (s : ScannerState) (b : Nat) :
    ((feedByte s b).2).filter isEndOfJob = [] := by
  simp only [feedByte]
  split_ifs <;> rfl

theorem feedList_eoj_filter (s : ScannerState) (bs : List Nat) :
    ((feedList s bs).2).filter isEndOfJob = [] := by
  induction bs generalizing s with
  | nil => rfl
  | cons b rest ih =>
    simp [feedList, List.filter_append, feedByte_eoj_filter, ih]

theorem closeJob_eoj_filter (s : ScannerState) (j : String) :
    (closeJob s j).filter isEndOfJob = [Event.endOfJob j] := by
  simp only [closeJob]
  split_ifs <;> rfl

theorem closeJob_getLast (s : ScannerState) (j : String) :
    (closeJob s j).getLast? = some (Event.endOfJob j) := by
  simp only [closeJob]
  split_ifs <;> rfl

theorem feedByte_addLine_count (s : ScannerState) (b : Nat) :
    ((feedByte s b).2).countP isAddLine ≤ 1 := by
  simp only [feedByte]
  split_ifs <;> simp [List.countP_cons, isAddLine]

theorem perByteEvents_mem (s : ScannerState) (bs : List Nat)
    (evs : List Event) (h : evs ∈ perByteEvents s bs) :
    ∃ s0 b, evs = (feedByte s0 b).2 := by
  induction bs generalizing s with
  | nil => simp [perByteEvents] at h
  | cons b rest ih =>
    simp only [perByteEvents, List.mem_cons] at h
    rcases h with h | h
    · exact ⟨s, b, h⟩
    · exact ih _ h

theorem scannerInv_feedByte (s : ScannerState) (b : Nat)
    (h : scannerInv s) : scannerInv (feedByte s b).1 := by
  obtain ⟨h1, h2⟩ := h
  simp only [feedByte]
  split_ifs <;>
    simp_all [scannerInv, initState, nextTabStop, maxLineLen] <;> omega

theorem feedByte_addLine_mem (s : ScannerState) (b : Nat) (line : List Nat)
    (a : Bool) (h : scannerInv s)
    (hm : Event.addLine line a ∈ (feedByte s b).2) :
    line.length ≤ maxLineLen := by
  obtain ⟨h1, h2⟩ := h
  simp only [feedByte] at hm
  split_ifs at hm <;> simp_all

theorem feedList_inv (s : ScannerState) (bs : List Nat)
    (h : scannerInv s) :
    scannerInv (feedList s bs).1
    ∧ ∀ line a, Event.addLine line a ∈ (feedList s bs).2 →
        line.length ≤ maxLineLen := by
  induction bs generalizing s with
  | nil => exact ⟨h, by simp [feedList]⟩
  | cons b rest ih =>
    obtain ⟨ih1, ih2⟩ := ih (feedByte s b).1 (scannerInv_feedByte s b h)
    refine ⟨ih1, ?_⟩
    intro line a hm
    simp only [feedList, List.mem_append] at hm
    rcases hm with hm | hm
    · exact feedByte_addLine_mem s b line a ⟨h.1, h.2⟩ hm
    · exact ih2 line a hm

theorem closeJob_addLine_mem (s : ScannerState) (j : String)
    (line : List Nat) (a : Bool) (h : scannerInv s)
    (hm : Event.addLine line a ∈ closeJob s j) :
    line.length ≤ maxLineLen := by
  obtain ⟨h1, h2⟩ := h
  simp only [closeJob] at hm
  split_ifs at hm <;> simp_all

/-- Claim C1: events appear in exactly the order of their triggering
input positions: the whole output is the concatenation, position by
position, of the events each byte triggers, followed by the closing
events; the job-completion event occurs exactly once, carries the
descriptor, and is the last event; and no single byte triggers more than
one line-completion event. -/
theorem events_in_stream_order (bs : List Nat) (j : String) :
    scan bs j =
      (perByteEvents initState bs).flatten
        ++ closeJob (feedList initState bs).1 j
    ∧ (scan bs j).filter isEndOfJob = [Event.endOfJob j]
    ∧ (scan bs j).getLast? = some (Event.endOfJob j)
    ∧ ∀ evs ∈ perByteEvents initState bs, evs.countP isAddLine ≤ 1 := by
  refine ⟨?_, ?_, ?_, ?_⟩
  · simp [scan, feedList_events_join]
  · simp [scan, List.filter_append, feedList_eoj_filter, closeJob_eoj_filter]
  · simp [scan, List.getLast?_append, closeJob_getLast]
  · intro evs hmem
    obtain ⟨s0, b, rfl⟩ := perByteEvents_mem initState bs evs hmem
    exact feedByte_addLine_count s0 b

/-- Witness for C1 on the concrete stream A LF: the second position
triggers exactly one line-completion event. -/
theorem events_in_stream_order_witness :
    ([Event.addLine [0x41] true] : List Event).countP isAddLine ≤ 1 :=
  (events_in_stream_order [0x41, charLF] "j").2.2.2
    [Event.addLine [0x41] true] (by decide)

/-- Claim C3: the scanner preserves the buffer invariant (buffer length
equals the column, at most 132) on every byte; a printable byte arriving
at column 132 is dropped, leaving the state otherwise unchanged; the
invariant holds initially; and hence every line-completion event in any
job carries at most 132 characters. -/
theorem line_buffer_capped (s : ScannerState) (b : Nat) (bs : List Nat)
    (j : String) (line : List Nat) (a : Bool) :
    (scannerInv s → scannerInv (feedByte s b).1)
    ∧ ((b ≠ charTab ∧ b ≠ charLF ∧ b ≠ charFF ∧ b ≠ charCR) →
        s.col = maxLineLen → feedByte s b = (⟨s.buf, s.col, false⟩, []))
    ∧ scannerInv initState
    ∧ (Event.addLine line a ∈ scan bs j → line.length ≤ maxLineLen) := by
  refine ⟨scannerInv_feedByte s b, ?_, ⟨rfl, by decide⟩, ?_⟩
  · intro hb hcol
    obtain ⟨t1, t2, t3, t4⟩ := hb
    simp [feedByte, if_neg t2, if_neg t4, if_neg t3, if_neg t1, hcol]
  · intro hm
    have hinv : scannerInv initState := ⟨rfl, by decide⟩
    simp only [scan, List.mem_append] at hm
    rcases hm with hm | hm
    · exact (feedList_inv initState bs hinv).2 line a hm
    · exact closeJob_addLine_mem _ j line a
        (feedList_inv initState bs hinv).1 hm

/-- Witness for C3: the invariant survives one printable byte; a byte
arriving at a full 132-column line is dropped; the single-character line
of the stream A LF is within the cap. -/
theorem line_buffer_capped_witness :
    scannerInv (feedByte initState 0x41).1
    ∧ feedByte ⟨List.replicate 132 0x41, 132, false⟩ 0x42 =
        (⟨List.replicate 132 0x41, 132, false⟩, [])
    ∧ ([0x41] : List Nat).length ≤ maxLineLen :=
  ⟨(line_buffer_capped initState 0x41 [] "j" [] true).1 ⟨rfl, by decide⟩,
   (line_buffer_capped ⟨List.replicate 132 0x41, 132, false⟩ 0x42 [] "j"
      [] true).2.1 (by decide) rfl,
   (line_buffer_capped initState 0 [0x41, charLF] "j" [0x41] true).2.2.2
     (by decide)⟩

/-- Claim C5: at end of stream, a line in progress is closed with
advance = true and its line-completion event emitted first, then exactly
one job-completion event with the caller-supplied descriptor; with no
line in progress only the job-completion event is emitted. For any whole
job, the job-completion event occurs exactly once and is the last
event. -/
theorem end_of_job_flushes_then_completes (s : ScannerState)
    (bs : List Nat) (j : String) :
    (s.buf ≠ [] ∨ 0 < s.col →
      closeJob s j = [Event.addLine s.buf true, Event.endOfJob j])
    ∧ (s.buf = [] ∧ s.col = 0 → closeJob s j = [Event.endOfJob j])
    ∧ (scan bs j).filter isEndOfJob = [Event.endOfJob j]
    ∧ (scan bs j).getLast? = some (Event.endOfJob j) := by
  refine ⟨?_, ?_, ?_, ?_⟩
  · intro h
    simp only [closeJob]
    rw [if_pos h]
  · intro h
    simp only [closeJob]
    rw [if_neg (by simp [h.1, h.2])]
  · simp [scan, List.filter_append, feedList_eoj_filter, closeJob_eoj_filter]
  · simp [scan, List.getLast?_append, closeJob_getLast]

/-- Witness for C5: closing mid-line flushes AB then completes the job;
closing at the initial state only completes the job. -/
theorem end_of_job_flushes_then_completes_witness :
    closeJob ⟨[0x41, 0x42], 2, false⟩ "job" =
      [Event.addLine [0x41, 0x42] true, Event.endOfJob "job"]
    ∧ closeJob initState "job" = [Event.endOfJob "job"] :=
  ⟨(end_of_job_flushes_then_completes ⟨[0x41, 0x42], 2, false⟩ [] "job").1
     (by simp),
   (end_of_job_flushes_then_completes initState [] "job").2.1 ⟨rfl, rfl⟩⟩

/-- Classification of an input byte: one of the four control bytes, or
printable. Every byte falls in exactly one class. -/
inductive ByteClass where
  | tab
  | lf
  | ff
  | cr
  | printable
deriving DecidableEq

/-- Total classification of the byte alphabet. -/
def classify (b : Nat) : ByteClass :=
  if b = charTab then ByteClass.tab
  else if b = charLF then ByteClass.lf
  else if b = charFF then ByteClass.ff
  else if b = charCR then ByteClass.cr
  else ByteClass.printable

/-- The handling of one byte, factored through its class: the dispatch of
the spec section 4.1 written per class instead of per byte value. -/
def handleClass (s : ScannerState) (c : ByteClass) (b : Nat) :
    ScannerState × List Event :=
  match c with
  | ByteClass.lf =>
    if s.prevCR then (initState, [])
    else (initState, [Event.addLine s.buf true])
  | ByteClass.cr => (⟨[], 0, true⟩, [Event.addLine s.buf false])
  | ByteClass.ff =>
    if s.buf ≠ [] ∨ 0 < s.col then
      (initState, [Event.addLine s.buf true, Event.pageBreak])
    else
      (initState, [Event.pageBreak])
  | ByteClass.tab =>
    (⟨s.buf ++ List.replicate (nextTabStop s.col - s.col) 0x20,
      nextTabStop s.col, false⟩, [])
  | ByteClass.printable =>
    if s.col < maxLineLen then
      (⟨s.buf ++ [b], s.col + 1, false⟩, [])
    else
      (⟨s.buf, s.col, false⟩, [])

/-- Claim C2: a carriage return immediately followed by a line feed is
coalesced into exactly one line-completion event, with advance = false and
the content accumulated before the carriage return; the following line
feed produces no second (empty) line-completion event. The concrete stream
AB CR LF XY LF yields exactly the two events (AB, false), (XY, true). -/
theorem crlf_coalesces_to_single_event (s : ScannerState) (j : String) :
    (feedList s [charCR, charLF]).2 = [Event.addLine s.buf false]
    ∧ (feedList s [charCR, charLF]).1 = initState
    ∧ scan [0x41, 0x42, charCR, charLF, 0x58, 0x59, charLF] j =
        [Event.addLine [0x41, 0x42] false, Event.addLine [0x58, 0x59] true,
         Event.endOfJob j] :=
  ⟨rfl, rfl, rfl⟩

/-- Claim C4: a form feed with a line in progress (non-empty buffer or
positive column) first closes that line with advance = true, then emits
exactly one page-break event; a form feed with nothing typed yet emits
only the page-break event. Either way the state resets for the new page. -/
theorem formfeed_closes_line_then_page_break (s : ScannerState) :
    (s.buf ≠ [] ∨ 0 < s.col →
      (feedByte s charFF).2 = [Event.addLine s.buf true, Event.pageBreak])
    ∧ (s.buf = [] ∧ s.col = 0 → (feedByte s charFF).2 = [Event.pageBreak])
    ∧ (feedByte s charFF).1 = initState := by
  refine ⟨?_, ?_, ?_⟩
  · intro h
    simp only [feedByte, charFF, charLF, charCR]
    norm_num
    rw [if_pos h]
  · intro h
    simp only [feedByte, charFF, charLF, charCR]
    norm_num
    rw [if_neg (by simp [h.1, h.2])]
  · simp only [feedByte, charFF, charLF, charCR]
    norm_num
    split <;> rfl

/-- Witness for C4: a form feed after the printable byte A closes the
line and breaks the page; a form feed at the initial state only breaks
the page. -/
theorem formfeed_closes_line_then_page_break_witness :
    (feedByte ⟨[0x41], 1, false⟩ charFF).2 =
      [Event.addLine [0x41] true, Event.pageBreak]
    ∧ (feedByte initState charFF).2 = [Event.pageBreak] :=
  ⟨(formfeed_closes_line_then_page_break ⟨[0x41], 1, false⟩).1 (by simp),
   (formfeed_closes_line_then_page_break initState).2.1 ⟨rfl, rfl⟩⟩

/-- Claim C7: a tab byte advances the column cursor to the next
multiple-of-8 tab stop, appending one space to the line buffer per skipped
column, and the advance is capped at column 132. Below the cap the stop is
exactly (col / 8 + 1) * 8, a strictly larger multiple of 8. -/
theorem tab_advances_to_stop (s : ScannerState) :
    feedByte s charTab =
      (⟨s.buf ++ List.replicate (nextTabStop s.col - s.col) 0x20,
        nextTabStop s.col, false⟩, [])
    ∧ (s.col ≤ maxLineLen → s.col ≤ nextTabStop s.col)
    ∧ nextTabStop s.col ≤ maxLineLen
    ∧ (s.col < maxLineLen → s.col < nextTabStop s.col)
    ∧ (s.col + 8 ≤ maxLineLen →
        nextTabStop s.col = (s.col / 8 + 1) * 8 ∧ nextTabStop s.col % 8 = 0) := by
  refine ⟨rfl, ?_, ?_, ?_, ?_⟩ <;>
    simp only [nextTabStop, maxLineLen] <;> omega

/-- Witness for C7 at the initial state: the first tab stop is column 8. -/
theorem tab_advances_to_stop_witness :
    initState.col < nextTabStop initState.col
    ∧ nextTabStop initState.col = (initState.col / 8 + 1) * 8 :=
  ⟨(tab_advances_to_stop initState).2.2.2.1 (by decide),
   ((tab_advances_to_stop initState).2.2.2.2 (by decide)).1⟩

/-- Claim C8: the byte dispatch is total. Every byte is handled according
to its class (tab, line feed, form feed, carriage return, or printable),
the classification covers every natural number byte value, and a byte is
printable exactly when it is none of the four control bytes. There is no
invalid-byte rejection branch. -/
theorem byte_dispatch_total (s : ScannerState) (b : Nat) :
    feedByte s b = handleClass s (classify b) b
    ∧ (classify b = ByteClass.printable ↔
        b ≠ charTab ∧ b ≠ charLF ∧ b ≠ charFF ∧ b ≠ charCR) := by
  constructor
  · simp only [feedByte, classify, handleClass, charTab, charLF, charFF,
      charCR]
    split_ifs <;> first | rfl | omega
  · simp only [classify, charTab, charLF, charFF, charCR]
    split_ifs with h1 h2 h3 h4 <;> simp_all

/-- Claim C6: a line feed that does not immediately follow a carriage
return closes the current line with advance = true and emits a
line-completion event with the current content, even when empty; two
consecutive line feeds produce two line-completion events with empty
content. -/
theorem linefeed_closes_line (s : ScannerState) (j : String) :
    (s.prevCR = false →
      feedByte s charLF = (initState, [Event.addLine s.buf true]))
    ∧ scan [charLF, charLF] j =
        [Event.addLine [] true, Event.addLine [] true, Event.endOfJob j] := by
  refine ⟨?_, rfl⟩
  intro h
  simp [feedByte, charLF, h]

/-- Witness for C6 at the initial state. -/
theorem linefeed_closes_line_witness :
    feedByte initState charLF = (initState, [Event.addLine [] true]) :=
  (linefeed_closes_line initState "j").1 rfl

/-- Database lookup outcome, from the db package used by
src/webserver/ui.go: a lookup either finds the user, reports ErrNotFound,
or fails with some other error. -/
inductive DbErr where
  | errNotFound
  | otherErr
deriving DecidableEq

/-- A user record, with the fields of model.User that
src/webserver/ui.go reads or writes. CheckPassword (a bcrypt comparison
whose code is outside the provided sources) is modelled as an abstract
boolean function of the submitted password. -/
structure User where
  email : String
  fullName : String
  accessKey : String
  verified : Bool
  enabled : Bool
  checkPw : String → Bool

/-- Model of strings.TrimSpace from the Go standard library, used by the
login handler on the submitted email: remove leading and trailing
whitespace characters. -/
def trimSpace (s : String) : String :=
  String.mk
    (((s.data.dropWhile Char.isWhitespace).reverse.dropWhile
        Char.isWhitespace).reverse)

/-- The observable outcome of the login handler
(src/webserver/ui.go, login): an HTTP 405, a render of home.page.tmpl
with the loginEmail and loginError template variables, or a successful
login that stores the session user and redirects. -/
inductive LoginResult where
  | methodNotAllowed
  | renderHome (loginEmail : String) (loginError : String)
  | success (sessionUser : String) (redirectTo : String)
deriving DecidableEq

/-- From src/webserver/ui.go, renderLoginError: render home.page.tmpl
with the given email and message. -/
def renderLoginError (email message : String) : LoginResult :=
  LoginResult.renderHome email message

/-- From src/webserver/ui.go, login: reject non-POST requests; trim the
submitted email; require both fields; look the user up by email (any
database error renders the invalid-credentials message); check the
password (failure renders the same message); on success store the session
user and redirect to the user page. -/
def login (method : String) (emailRaw pass : String)
    (getUser : String → Except DbErr User) : LoginResult :=
  if method ≠ "POST" then LoginResult.methodNotAllowed
  else
    let email := trimSpace emailRaw
    if email = "" ∨ pass = "" then
      renderLoginError email "Must provide email and password."
    else
      match getUser email with
      | Except.error _ =>
        renderLoginError email "Invalid login credentials."
      | Except.ok u =>
        if ¬ u.checkPw pass then
          renderLoginError email "Invalid login credentials."
        else
          LoginResult.success u.email "user"

/-- The observable outcome of the verify handler
(src/webserver/ui.go, verifyUser): a 404 (empty token), a 404 with the
unknown-token message, a 500, a 409 conflict, or a success flash plus
redirect. -/
inductive VerifyResponse where
  | notFoundPage
  | notFoundMsg (msg : String)
  | serverErr (msg : String)
  | conflict (msg : String)
  | redirect (location : String) (flash : String)
deriving DecidableEq

/-- The HTTP status code of each verify outcome, per the net/http status
constants used in src/webserver/ui.go. -/
def statusCode : VerifyResponse → Nat
  | VerifyResponse.notFoundPage => 404
  | VerifyResponse.notFoundMsg _ => 404
  | VerifyResponse.serverErr _ => 500
  | VerifyResponse.conflict _ => 409
  | VerifyResponse.redirect _ _ => 303

/-- From src/webserver/ui.go, verifyUser. GenerateAccessKey (random key
generation, outside the provided sources) is modelled by the fresh key
newKey; the database SaveUser call is modelled by its success flag saveOk.
The second component is the record passed to SaveUser, or none when
SaveUser is never called. -/
def verifyUser (token : String)
    (getUserForAccessKey : String → Except DbErr User)
    (newKey : String) (saveOk : Bool) : VerifyResponse × Option User :=
  if token = "" then (VerifyResponse.notFoundPage, none)
  else
    match getUserForAccessKey token with
    | Except.error DbErr.errNotFound =>
      (VerifyResponse.notFoundMsg
        "That token was not found or has already been used to verify the user.",
       none)
    | Except.error DbErr.otherErr =>
      (VerifyResponse.serverErr "Unexpected error looking up token", none)
    | Except.ok u =>
      if u.verified then
        (VerifyResponse.conflict "That user has already been verified.", none)
      else
        let u2 : User := { u with verified := true, accessKey := newKey }
        if saveOk then
          (VerifyResponse.redirect "user"
            "Email address successfully verified.", some u2)
        else
          (VerifyResponse.serverErr
            "Error saving user record after verification", some u2)

/-- Claim C9: a login whose email is not found in the database and a
login whose email exists but whose password check fails produce identical
responses, both rendering the message Invalid login credentials. with the
submitted (trimmed) email, so the two failure causes are
indistinguishable to the requester. -/
theorem login_failures_indistinguishable (emailRaw pass : String)
    (db1 db2 : String → Except DbErr User) (u : User)
    (he : trimSpace emailRaw ≠ "") (hp : pass ≠ "")
    (h1 : db1 (trimSpace emailRaw) = Except.error DbErr.errNotFound)
    (h2 : db2 (trimSpace emailRaw) = Except.ok u)
    (hc : u.checkPw pass = false) :
    login "POST" emailRaw pass db1 = login "POST" emailRaw pass db2
    ∧ login "POST" emailRaw pass db1 =
        renderLoginError (trimSpace emailRaw) "Invalid login credentials." := by
  have hbase : login "POST" emailRaw pass db1 =
      renderLoginError (trimSpace emailRaw) "Invalid login credentials." := by
    simp only [login, h1]
    rw [if_neg (by simp), if_neg (by simp [he, hp])]
  refine ⟨?_, hbase⟩
  rw [hbase]
  simp only [login, h2]
  rw [if_neg (by simp), if_neg (by simp [he, hp])]
  simp [hc]

/-- A sample user for the witnesses: unverified, enabled, rejecting every
password. -/
def sampleUser : User :=
  { email := "a@example.com", fullName := "A User", accessKey := "key0",
    verified := false, enabled := true, checkPw := fun _ => false }

/-- Witness for C9 at a concrete request: the not-found response and the
wrong-password response coincide. -/
theorem login_failures_indistinguishable_witness :
    login "POST" "a@example.com" "pw" (fun _ => Except.error DbErr.errNotFound)
      = login "POST" "a@example.com" "pw" (fun _ => Except.ok sampleUser)
    ∧ login "POST" "a@example.com" "pw"
        (fun _ => Except.error DbErr.errNotFound) =
        renderLoginError (trimSpace "a@example.com") "Invalid login credentials." :=
  login_failures_indistinguishable "a@example.com" "pw"
    (fun _ => Except.error DbErr.errNotFound) (fun _ => Except.ok sampleUser)
    sampleUser (by decide) (by decide) rfl rfl rfl

/-- The sample user after verification, for the C10 witness. -/
def sampleUserVerified : User :=
  { email := "a@example.com", fullName := "A User", accessKey := "key0",
    verified := true, enabled := true, checkPw := fun _ => false }

/-- Claim C10: a verification request whose token maps to an
already-verified user yields HTTP 409 Conflict and never calls SaveUser,
leaving the stored record unchanged; only when the user is unverified is
the record saved, with Verified set and a fresh access key. -/
theorem verify_conflict_on_verified_user (token : String)
    (db : String → Except DbErr User) (newKey : String) (saveOk : Bool)
    (u : User) (ht : token ≠ "") (hu : db token = Except.ok u) :
    (u.verified = true →
      verifyUser token db newKey saveOk =
        (VerifyResponse.conflict "That user has already been verified.", none)
      ∧ statusCode (verifyUser token db newKey saveOk).1 = 409)
    ∧ (u.verified = false →
      (verifyUser token db newKey saveOk).2 =
        some { u with verified := true, accessKey := newKey }) := by
  constructor
  · intro hv
    have hres : verifyUser token db newKey saveOk =
        (VerifyResponse.conflict "That user has already been verified.",
         none) := by
      simp only [verifyUser, hu]
      rw [if_neg ht, if_pos hv]
    exact ⟨hres, by rw [hres]; rfl⟩
  · intro hv
    simp only [verifyUser, hu]
    rw [if_neg ht, if_neg (by simp [hv])]
    rcases saveOk with _ | _ <;> simp

/-- Witness for C10: with a token mapping to the verified sample user the
handler answers 409 and saves nothing; with the unverified sample user it
saves the record with Verified set and the fresh key. -/
theorem verify_conflict_on_verified_user_witness :
    verifyUser "tok" (fun _ => Except.ok sampleUserVerified) "fresh" true =
      (VerifyResponse.conflict "That user has already been verified.", none)
    ∧ (verifyUser "tok" (fun _ => Except.ok sampleUser) "fresh" true).2 =
        some { sampleUser with verified := true, accessKey := "fresh" } :=
  ⟨((verify_conflict_on_verified_user "tok"
      (fun _ => Except.ok sampleUserVerified) "fresh" true sampleUserVerified
      (by decide) rfl).1 rfl).1,
   (verify_conflict_on_verified_user "tok" (fun _ => Except.ok sampleUser)
      "fresh" true sampleUser (by decide) rfl).2 rfl⟩

end Virtual1403
